import Mathlib

/-!
Verification of the bracket-matching program in `src/day10b/src/main.rs`
(Advent of Code 2021, day 10 part b).

Embedding conventions:
* The Rust `Vec<Bracket>` stack (top of stack at the *end* of the vector) is
  modelled as a Lean `List Bracket` with the top of the stack at the *head*.
  Under this convention `Vec::push` is `List.cons`, `Vec::pop` takes the head,
  `stack.last()` is the head, and iterating `stack.iter().rev()` is iterating
  the Lean list front to back.
* A Rust function taking `&mut ParserState` and returning `Result<(), String>`
  becomes a pure function returning `Except String Unit × ParserState`: the
  state component is the state after the call even when the result is an
  error, exactly as the mutated Rust state survives an `Err` return.
* Rust `panic!` is modelled by `Option`/`none` (the program aborts).
* Rust `i64` scores are modelled as `Int`; no intermediate value in any claim
  approaches the 64-bit range.
* Rust `char`/`String` become `Char`/`List Char`; the error messages, which
  the spec pins down verbatim, are kept as Lean `String`s.
-/

namespace Day10b

/-- Bracket kinds, one per canonical pair, mirroring `enum Bracket` in the
source (`Round` = parentheses, `Square`, `Curly`, `Angle`). -/
inductive Bracket where
  | Round
  | Square
  | Curly
  | Angle
deriving DecidableEq, Repr

/-- Parser state: the stack of currently-open bracket kinds for one line,
mirroring `struct ParserState { stack: Vec<Bracket> }`. Top of stack is the
head of the list. -/
structure ParserState where
  stack : List Bracket
deriving DecidableEq, Repr

/-- Mirrors `ParserState::new`: a fresh empty stack. -/
def ParserState.new : ParserState := ⟨[]⟩

/-- Mirrors `ParserState::push`: push an opening bracket onto the stack. -/
def ParserState.push (s : ParserState) (bracket : Bracket) : ParserState :=
  ⟨bracket :: s.stack⟩

/-- Mirrors `ParserState::pop`: `self.stack.pop()` removes the top element
(if any) unconditionally; the popped element is returned only when it equals
`closing`. Note that on a mismatch the element is still removed. -/
def ParserState.pop (s : ParserState) (closing : Bracket) :
    Option Bracket × ParserState :=
  match s.stack with
  | [] => (none, s)
  | opening :: rest =>
      if opening = closing then (some opening, ⟨rest⟩) else (none, ⟨rest⟩)

/-- The closing character of each bracket kind, as in the `match` inside
`ParserState::completion_string` (and `handle_closing_bracket`'s `expected`). -/
def bracketClosingChar : Bracket → Char
  | .Round => ')'
  | .Square => ']'
  | .Curly => '\x7d'
  | .Angle => '>'

/-- Mirrors `ParserState::completion_string`: the stack iterated in reverse
vector order (list order here), each kind mapped to its closing character. -/
def ParserState.completion_string (s : ParserState) : List Char :=
  s.stack.map bracketClosingChar

/-- Per-character value used by `calculate_score`; `none` models the
`panic!("Unexpected character in completion string")` arm. -/
def charValue (ch : Char) : Option Int :=
  if ch = ')' then some 1
  else if ch = ']' then some 2
  else if ch = '\x7d' then some 3
  else if ch = '>' then some 4
  else none

/-- The loop of `calculate_score`, with the running `score` accumulator. -/
def scoreLoop (score : Int) : List Char → Option Int
  | [] => some score
  | ch :: rest =>
      match charValue ch with
      | some v => scoreLoop (score * 5 + v) rest
      | none => none

/-- Mirrors `calculate_score`: fold over the completion string, multiplying
by 5 and adding the per-character value; `none` models the panic on an
unexpected character. -/
def calculate_score (completion : List Char) : Option Int :=
  scoreLoop 0 completion

/-- Maps a closing character to its bracket kind, as in the inner `match ch`
of `handle_closing_bracket` (the source's `panic!` arm is unreachable there
because the outer `match` already restricted `ch` to the four closing
characters; here the same four-character test serves as both the outer gate
and the conversion). -/
def closingToBracket (ch : Char) : Option Bracket :=
  if ch = ')' then some .Round
  else if ch = ']' then some .Square
  else if ch = '\x7d' then some .Curly
  else if ch = '>' then some .Angle
  else none

/-- Mirrors `handle_opening_bracket`: push the kind of a recognized opening
character, otherwise do nothing. -/
def handle_opening_bracket (state : ParserState) (ch : Char) : ParserState :=
  if ch = '(' then state.push .Round
  else if ch = '[' then state.push .Square
  else if ch = '\x7b' then state.push .Curly
  else if ch = '<' then state.push .Angle
  else state

/-- Mirrors `handle_closing_bracket`. For a closing character: if the stack
is empty report the underflow message; otherwise compute the `expected`
closing character from the stack top, then `pop` (which removes the top even
on mismatch) and report the mismatch message when the pop fails. The state
component is the state after the call, error or not. -/
def handle_closing_bracket (state : ParserState) (ch : Char) :
    Except String Unit × ParserState :=
  match closingToBracket ch with
  | none => (.ok (), state)
  | some closing =>
      match state.stack with
      | [] =>
          (.error ("Expected opening bracket, but found " ++ ch.toString
            ++ " instead."), state)
      | top :: _ =>
          let expected := bracketClosingChar top
          match state.pop closing with
          | (some _, s2) => (.ok (), s2)
          | (none, s2) =>
              (.error ("Expected " ++ expected.toString ++ ", but found "
                ++ ch.toString ++ " instead."), s2)

/-- One iteration of the per-character loop in `main`: try the closing-bracket
handler first; only on `Ok` run the opening-bracket handler. The state
component is the parser state after the character, error or not. -/
def stepChar (state : ParserState) (ch : Char) :
    Except String Unit × ParserState :=
  match handle_closing_bracket state ch with
  | (.ok _, s2) => (.ok (), handle_opening_bracket s2 ch)
  | (.error e, s2) => (.error e, s2)

/-- The per-line loop of `main`: process characters left to right, stopping
at the first error (`break` on `Err`); on success return the final state. -/
def processLine (state : ParserState) : List Char → Except String ParserState
  | [] => .ok state
  | ch :: rest =>
      match handle_closing_bracket state ch with
      | (.ok _, s2) => processLine (handle_opening_bracket s2 ch) rest
      | (.error e, _) => .error e

/-- The first (and only) corruption message printed for a line, if any. -/
def firstError (line : List Char) : Option String :=
  match processLine ParserState.new line with
  | .ok _ => none
  | .error e => some e

/-- The score-collection loop of `main`: each non-corrupted line contributes
`calculate_score` of its completion string, in input order; a corrupted line
contributes nothing; `none` models the program aborting if `calculate_score`
ever panics. -/
def collectScores : List (List Char) → Option (List Int)
  | [] => some []
  | line :: rest =>
      match processLine ParserState.new line with
      | .error _ => collectScores rest
      | .ok s =>
          match calculate_score s.completion_string with
          | none => none
          | some sc => (collectScores rest).map (fun tl => sc :: tl)

/-- Mirrors `find_median_score`: sort ascending, then index at `len / 2`;
`none` models the out-of-bounds panic (empty input). -/
def find_median_score (scores : List Int) : Option Int :=
  let sorted := scores.mergeSort
  sorted[sorted.length / 2]?

/-! Specification-side definitions, written from the spec's words for
comparison with the code-derived definitions above. -/

/-- Scoring step as the specification words it: multiply the running total
by 5, then add 1 for a parenthesis, 2 for a square bracket, 3 for a curly
bracket, 4 for an angle bracket. -/
def specScoreStep (acc : Int) (ch : Char) : Int :=
  acc * 5 + (if ch = ')' then 1 else if ch = ']' then 2
    else if ch = '\x7d' then 3 else 4)

/-- Scoring as the specification words it: the left fold of `specScoreStep`
starting at 0. -/
def specScoreFold (cs : List Char) : Int :=
  cs.foldl specScoreStep 0

/-- One character of the stack evolution the specification describes: an
opening character adds its kind innermost; a closing character that matches
the innermost still-open bracket validly closes it; any other character
closes nothing. -/
def unclosedStep (stack : List Bracket) (ch : Char) : List Bracket :=
  if ch = '(' then .Round :: stack
  else if ch = '[' then .Square :: stack
  else if ch = '\x7b' then .Curly :: stack
  else if ch = '<' then .Angle :: stack
  else
    match stack with
    | top :: rest => if bracketClosingChar top = ch then rest else stack
    | [] => stack

/-- The bracket kinds of the opening brackets encountered so far that have
not yet been validly closed, in nesting order (innermost first), as the
specification describes the parser stack. -/
def unclosedOpen (cs : List Char) : List Bracket :=
  cs.foldl unclosedStep []

/-- Opening character of each bracket kind. -/
def bracketOpeningChar : Bracket → Char
  | .Round => '('
  | .Square => '['
  | .Curly => '\x7b'
  | .Angle => '<'

/-- Fully balanced sequences of validly nested brackets: empty, a balanced
sequence wrapped in a matching pair, or two balanced sequences in a row. -/
inductive Balanced : List Char → Prop where
  | nil : Balanced []
  | wrap (b : Bracket) {m : List Char} : Balanced m →
      Balanced (bracketOpeningChar b :: m ++ [bracketClosingChar b])
  | append {l m : List Char} : Balanced l → Balanced m → Balanced (l ++ m)

/-- The corrupted-line fixture from the spec and the source's tests. -/
def fixtureLine : List Char :=
  ['\x7b', '(', '[', '(', '<', '\x7b', '\x7d', '[', '<', '>', '[', ']',
   '\x7d', '>', '\x7b', '[', ']', '\x7b', '[', '(', '<', '(', ')', '>']

/-! Helper lemmas shared by several theorems. -/

/-- A character maps to no bracket kind exactly when it is not one of the
four closing characters. -/
lemma closingToBracket_eq_none_iff (ch : Char) :
    closingToBracket ch = none ↔
      ¬(ch = ')' ∨ ch = ']' ∨ ch = '\x7d' ∨ ch = '>') := by
  unfold closingToBracket
  split_ifs <;> simp_all

/-- When a character maps to a bracket kind, that kind's closing character
is the character itself. -/
lemma bracketClosingChar_of_closingToBracket {ch : Char} {b : Bracket}
    (h : closingToBracket ch = some b) : bracketClosingChar b = ch := by
  unfold closingToBracket at h
  split_ifs at h with h1 h2 h3 h4
  · obtain rfl : Bracket.Round = b := Option.some.inj h
    simp [bracketClosingChar, h1]
  · obtain rfl : Bracket.Square = b := Option.some.inj h
    simp [bracketClosingChar, h2]
  · obtain rfl : Bracket.Curly = b := Option.some.inj h
    simp [bracketClosingChar, h3]
  · obtain rfl : Bracket.Angle = b := Option.some.inj h
    simp [bracketClosingChar, h4]

/-- The closing character determines the bracket kind. -/
lemma bracketClosingChar_injective (a b : Bracket)
    (h : bracketClosingChar a = bracketClosingChar b) : a = b := by
  cases a <;> cases b <;> simp_all [bracketClosingChar]

/-- Round trip from kind to closing character and back. -/
lemma closingToBracket_bracketClosingChar (b : Bracket) :
    closingToBracket (bracketClosingChar b) = some b := by
  cases b <;> rfl

/-- Under the all-closing-characters hypothesis, the scoring loop never hits
the panic arm and computes the specification's left fold from any
accumulator. -/
lemma scoreLoop_eq_foldl (cs : List Char) :
    ∀ acc : Int, (∀ ch ∈ cs, ch = ')' ∨ ch = ']' ∨ ch = '\x7d' ∨ ch = '>') →
    scoreLoop acc cs = some (cs.foldl specScoreStep acc) := by
  induction cs with
  | nil => intro acc _; rfl
  | cons ch rest ih =>
      intro acc h
      have hch := h ch (by simp)
      have hrest : ∀ c ∈ rest, c = ')' ∨ c = ']' ∨ c = '\x7d' ∨ c = '>' :=
        fun c hc => h c (by simp [hc])
      rcases hch with h1 | h1 | h1 | h1 <;> subst h1 <;>
        simpa [scoreLoop, charValue, specScoreStep] using ih _ hrest

/-- Unfolding equation for `processLine` on a non-empty line. -/
lemma processLine_cons (s : ParserState) (ch : Char) (rest : List Char) :
    processLine s (ch :: rest) =
      match handle_closing_bracket s ch with
      | (.ok _, s2) => processLine (handle_opening_bracket s2 ch) rest
      | (.error e, _) => .error e := rfl

/-- Unfolding equation for `collectScores` on a non-empty line list. -/
lemma collectScores_cons (line : List Char) (rest : List (List Char)) :
    collectScores (line :: rest) =
      match processLine ParserState.new line with
      | .error _ => collectScores rest
      | .ok s =>
          match calculate_score s.completion_string with
          | none => none
          | some sc => (collectScores rest).map (fun tl => sc :: tl) := rfl

/-- The closing-bracket handler ignores a character that is not a closing
character. -/
lemma handle_closing_of_not_closing (s : ParserState) {ch : Char}
    (hc : closingToBracket ch = none) :
    handle_closing_bracket s ch = (.ok (), s) := by
  unfold handle_closing_bracket
  rw [hc]

/-- The closing-bracket handler reports the underflow message when a closing
character arrives on an empty stack, leaving the state unchanged. -/
lemma handle_closing_empty (s : ParserState) {ch : Char} {b : Bracket}
    (hc : closingToBracket ch = some b) (hs : s.stack = []) :
    handle_closing_bracket s ch =
      (.error ("Expected opening bracket, but found " ++ ch.toString
        ++ " instead."), s) := by
  unfold handle_closing_bracket ParserState.pop
  rw [hc, hs]

/-- The closing-bracket handler pops a matching top and succeeds. -/
lemma handle_closing_match (s : ParserState) {ch : Char} {b : Bracket}
    {rest : List Bracket}
    (hc : closingToBracket ch = some b) (hs : s.stack = b :: rest) :
    handle_closing_bracket s ch = (.ok (), ⟨rest⟩) := by
  unfold handle_closing_bracket ParserState.pop
  rw [hc, hs]
  simp

/-- The closing-bracket handler reports the mismatch message when the top of
the stack expects a different closing character — and has still popped that
top. -/
lemma handle_closing_mismatch (s : ParserState) {ch : Char} {b top : Bracket}
    {rest : List Bracket}
    (hc : closingToBracket ch = some b) (hs : s.stack = top :: rest)
    (hne : top ≠ b) :
    handle_closing_bracket s ch =
      (.error ("Expected " ++ (bracketClosingChar top).toString
        ++ ", but found " ++ ch.toString ++ " instead."), ⟨rest⟩) := by
  unfold handle_closing_bracket ParserState.pop
  rw [hc, hs]
  simp [hne]

/-- The opening-bracket handler ignores a closing character. -/
lemma handle_opening_of_closing {ch : Char} {b : Bracket}
    (hc : closingToBracket ch = some b) (s : ParserState) :
    handle_opening_bracket s ch = s := by
  unfold closingToBracket at hc
  split_ifs at hc with h1 h2 h3 h4 <;> subst_vars <;> rfl

/-- A character mapping to a bracket kind is one of the four closing
characters. -/
lemma closing_char_of_closingToBracket {ch : Char} {b : Bracket}
    (hc : closingToBracket ch = some b) :
    ch = ')' ∨ ch = ']' ∨ ch = '\x7d' ∨ ch = '>' := by
  by_contra hn
  rw [← closingToBracket_eq_none_iff] at hn
  rw [hn] at hc
  exact absurd hc (by simp)

/-- Each of the four closing characters maps to a bracket kind. -/
lemma closingToBracket_of_closing_char {ch : Char}
    (h : ch = ')' ∨ ch = ']' ∨ ch = '\x7d' ∨ ch = '>') :
    ∃ b, closingToBracket ch = some b := by
  rcases h with h | h | h | h <;> subst h
  · exact ⟨.Round, rfl⟩
  · exact ⟨.Square, rfl⟩
  · exact ⟨.Curly, rfl⟩
  · exact ⟨.Angle, rfl⟩

/-- On a non-closing character, one loop step runs only the opening-bracket
handler. -/
lemma stepChar_of_not_closing (s : ParserState) {ch : Char}
    (hc : closingToBracket ch = none) :
    stepChar s ch = (.ok (), handle_opening_bracket s ch) := by
  unfold stepChar
  rw [handle_closing_of_not_closing s hc]

/-- On a closing character over an empty stack, one loop step reports the
underflow error and leaves the state unchanged. -/
lemma stepChar_closing_empty (s : ParserState) {ch : Char} {b : Bracket}
    (hc : closingToBracket ch = some b) (hs : s.stack = []) :
    stepChar s ch =
      (.error ("Expected opening bracket, but found " ++ ch.toString
        ++ " instead."), s) := by
  unfold stepChar
  rw [handle_closing_empty s hc hs]

/-- On a closing character matching the stack top, one loop step pops the
top and succeeds. -/
lemma stepChar_closing_match (s : ParserState) {ch : Char} {b : Bracket}
    {rest : List Bracket}
    (hc : closingToBracket ch = some b) (hs : s.stack = b :: rest) :
    stepChar s ch = (.ok (), ⟨rest⟩) := by
  unfold stepChar
  rw [handle_closing_match s hc hs]
  exact congrArg _ (handle_opening_of_closing hc ⟨rest⟩)

/-- On a closing character mismatching the stack top, one loop step reports
the mismatch error with the top already popped. -/
lemma stepChar_closing_mismatch (s : ParserState) {ch : Char} {b top : Bracket}
    {rest : List Bracket}
    (hc : closingToBracket ch = some b) (hs : s.stack = top :: rest)
    (hne : top ≠ b) :
    stepChar s ch =
      (.error ("Expected " ++ (bracketClosingChar top).toString
        ++ ", but found " ++ ch.toString ++ " instead."), ⟨rest⟩) := by
  unfold stepChar
  rw [handle_closing_mismatch s hc hs hne]

/-- On a closing character, the specification's stack step reduces to
pop-if-matching. -/
lemma unclosedStep_of_closing {ch : Char} {b : Bracket}
    (hc : closingToBracket ch = some b) (stack : List Bracket) :
    unclosedStep stack ch =
      match stack with
      | top :: rest => if bracketClosingChar top = ch then rest else stack
      | [] => stack := by
  unfold closingToBracket at hc
  split_ifs at hc <;> subst_vars <;> rfl

/-- A successful loop step transforms the stack exactly as the
specification's stack step does. -/
lemma stepChar_ok_stack (s : ParserState) (ch : Char) (s' : ParserState)
    (h : stepChar s ch = (.ok (), s')) :
    s'.stack = unclosedStep s.stack ch := by
  cases hc : closingToBracket ch with
  | none =>
      rw [stepChar_of_not_closing s hc] at h
      simp only [Prod.mk.injEq, true_and] at h
      subst h
      unfold handle_opening_bracket unclosedStep ParserState.push
      split_ifs
      · rfl
      · rfl
      · rfl
      · rfl
      · cases hst : s.stack with
        | nil => rfl
        | cons top rest =>
            have hne : bracketClosingChar top ≠ ch := by
              intro he
              rw [← he, closingToBracket_bracketClosingChar] at hc
              exact absurd hc (by simp)
            simp [hne]
  | some b =>
      cases hst : s.stack with
      | nil =>
          rw [stepChar_closing_empty s hc hst] at h
          exact absurd h (by simp)
      | cons top rest =>
          by_cases hb : top = b
          · subst hb
            rw [stepChar_closing_match s hc hst] at h
            simp only [Prod.mk.injEq, true_and] at h
            subst h
            rw [unclosedStep_of_closing hc]
            simp [bracketClosingChar_of_closingToBracket hc]
          · rw [stepChar_closing_mismatch s hc hst hb] at h
            exact absurd h (by simp)

/-- A line processed without error transforms the stack by the left fold of
the specification's stack step. -/
lemma processLine_stack (cs : List Char) :
    ∀ s0 s : ParserState, processLine s0 cs = .ok s →
    s.stack = cs.foldl unclosedStep s0.stack := by
  induction cs with
  | nil =>
      intro s0 s h
      simp only [processLine] at h
      cases h
      rfl
  | cons ch rest ih =>
      intro s0 s h
      rw [processLine_cons] at h
      cases hh : handle_closing_bracket s0 ch with
      | mk r s2 =>
          rw [hh] at h
          cases r with
          | error e => exact absurd h (by simp)
          | ok u =>
              have hstep : stepChar s0 ch =
                  (.ok (), handle_opening_bracket s2 ch) := by
                unfold stepChar
                rw [hh]
              rw [List.foldl_cons, ← stepChar_ok_stack s0 ch _ hstep]
              exact ih _ s h

/-- Processing a concatenation processes the first part, then on success the
second from the resulting state; an error in the first part is final. -/
lemma processLine_append (l m : List Char) :
    ∀ s : ParserState, processLine s (l ++ m) =
      match processLine s l with
      | .ok s' => processLine s' m
      | .error e => .error e := by
  induction l with
  | nil => intro s; rfl
  | cons ch rest ih =>
      intro s
      rw [List.cons_append, processLine_cons, processLine_cons]
      cases handle_closing_bracket s ch with
      | mk r s2 =>
          cases r with
          | ok u => exact ih _
          | error e => rfl

/-- An error that ends a line is unchanged by any characters after it. -/
lemma processLine_error_append (cs more : List Char) (e : String)
    (s : ParserState) (h : processLine s cs = .error e) :
    processLine s (cs ++ more) = .error e := by
  rw [processLine_append, h]

/-- A balanced bracket sequence processes without error and returns the
parser to the state it started from. -/
lemma processLine_balanced {cs : List Char} (h : Balanced cs) :
    ∀ s : ParserState, processLine s cs = .ok s := by
  induction h with
  | nil => intro s; rfl
  | @wrap b m hm ih =>
      intro s
      have hstep :
          processLine s (bracketOpeningChar b :: m ++ [bracketClosingChar b]) =
          processLine (s.push b) (m ++ [bracketClosingChar b]) := by
        cases b <;> rfl
      rw [hstep, processLine_append, ih (s.push b)]
      cases b <;> rfl
  | append hl hm ihl ihm =>
      intro s
      rw [processLine_append, ihl s]
      exact ihm s

/-! Claim theorems. -/

/-- C2: for every string of closing characters, `calculate_score` equals the
left fold that starts at 0 and, for each character in order, multiplies the
running total by 5 and adds 1 for a parenthesis, 2 for a square bracket, 3
for a curly bracket, 4 for an angle bracket; the empty string scores 0, and
the five concrete examples score 9, 66, 19, 294 and 1480781. -/
theorem calculate_score_is_base5_fold :
    (∀ cs : List Char,
      (∀ ch ∈ cs, ch = ')' ∨ ch = ']' ∨ ch = '\x7d' ∨ ch = '>') →
      calculate_score cs = some (specScoreFold cs)) ∧
    calculate_score [] = some 0 ∧
    calculate_score [')', '>'] = some 9 ∧
    calculate_score [']', '\x7d', ')'] = some 66 ∧
    calculate_score ['\x7d', '>'] = some 19 ∧
    calculate_score [']', ')', '\x7d', '>'] = some 294 ∧
    calculate_score ['\x7d', '\x7d', '>', '\x7d', '>', ')', ')', ')', ')'] =
      some 1480781 := by
  refine ⟨fun cs h => scoreLoop_eq_foldl cs 0 h, rfl, ?_, ?_, ?_, ?_, ?_⟩ <;> rfl

/-- Witness for C2 at the concrete input `")>"`. -/
theorem calculate_score_is_base5_fold_witness :
    calculate_score [')', '>'] = some (specScoreFold [')', '>']) :=
  calculate_score_is_base5_fold.1 [')', '>'] (by decide)

/-- C6: pushing any bracket kind and then popping with that same kind
returns `some` of it and restores the stack to what it was before the push. -/
theorem push_pop_roundtrip (s : ParserState) (k : Bracket) :
    (s.push k).pop k = (some k, s) := by
  cases s
  simp [ParserState.push, ParserState.pop]

/-- C7: a character that is none of the eight bracket characters is a
no-op for the closing-bracket handler, the opening-bracket handler, and
their composition as run by the per-character loop: no error, stack
unchanged. -/
theorem nonbracket_char_noop (ch : Char) (s : ParserState)
    (h : ¬(ch = '(' ∨ ch = ')' ∨ ch = '[' ∨ ch = ']' ∨ ch = '\x7b' ∨
      ch = '\x7d' ∨ ch = '<' ∨ ch = '>')) :
    handle_closing_bracket s ch = (.ok (), s) ∧
    handle_opening_bracket s ch = s ∧
    stepChar s ch = (.ok (), s) := by
  push_neg at h
  obtain ⟨h1, h2, h3, h4, h5, h6, h7, h8⟩ := h
  have hc : closingToBracket ch = none := by
    simp [closingToBracket, h2, h4, h6, h8]
  have hcl : handle_closing_bracket s ch = (.ok (), s) := by
    simp [handle_closing_bracket, hc]
  have hop : handle_opening_bracket s ch = s := by
    simp [handle_opening_bracket, h1, h3, h5, h7]
  exact ⟨hcl, hop, by simp [stepChar, hcl, hop]⟩

/-- Witness for C7 at the non-bracket character `a` on a non-empty stack. -/
theorem nonbracket_char_noop_witness :
    handle_closing_bracket ⟨[.Round]⟩ 'a' = (.ok (), ⟨[.Round]⟩) ∧
    handle_opening_bracket ⟨[.Round]⟩ 'a' = ⟨[.Round]⟩ ∧
    stepChar ⟨[.Round]⟩ 'a' = (.ok (), ⟨[.Round]⟩) :=
  nonbracket_char_noop 'a' ⟨[.Round]⟩ (by decide)

/-- C9: every character of any completion string is one of the four closing
characters, so scoring a completion string never reaches the panic arm of
`calculate_score` (the result is always `some`). -/
theorem completion_string_always_scoreable (s : ParserState) :
    (∀ ch ∈ s.completion_string,
      ch = ')' ∨ ch = ']' ∨ ch = '\x7d' ∨ ch = '>') ∧
    ∃ v, calculate_score s.completion_string = some v := by
  have hall : ∀ ch ∈ s.completion_string,
      ch = ')' ∨ ch = ']' ∨ ch = '\x7d' ∨ ch = '>' := by
    intro ch hch
    obtain ⟨b, _, rfl⟩ := List.mem_map.mp hch
    cases b <;> simp [bracketClosingChar]
  exact ⟨hall, _, scoreLoop_eq_foldl _ 0 hall⟩

/-- Witness for C9 on the state with one open bracket of each kind. -/
theorem completion_string_always_scoreable_witness :
    ∃ v, calculate_score
      (ParserState.completion_string ⟨[.Round, .Square, .Curly, .Angle]⟩) =
      some v :=
  (completion_string_always_scoreable ⟨[.Round, .Square, .Curly, .Angle]⟩).2

/-- C10: `find_median_score` of the empty collection hits the out-of-bounds
index (the modelled panic, `none`); on any non-empty collection the index
`len / 2` is in bounds and the function returns a value. -/
theorem find_median_score_empty_panics_nonempty_total :
    find_median_score [] = none ∧
    ∀ l : List Int, l ≠ [] → ∃ v, find_median_score l = some v := by
  constructor
  · simp [find_median_score]
  · intro l hl
    have hlen : l.mergeSort.length = l.length :=
      (List.mergeSort_perm l _).length_eq
    have hpos : 0 < l.mergeSort.length := by
      rw [hlen]; exact List.length_pos.mpr hl
    have hidx : l.mergeSort.length / 2 < l.mergeSort.length :=
      Nat.div_lt_self hpos (by norm_num)
    exact ⟨_, List.getElem?_eq_getElem hidx⟩

/-- Witness for C10 on a concrete non-empty collection. -/
theorem find_median_score_nonempty_total_witness :
    ([3, 1, 2] : List Int) ≠ [] ∧
    ∃ v, find_median_score [3, 1, 2] = some v :=
  ⟨by decide,
    find_median_score_empty_panics_nonempty_total.2 [3, 1, 2] (by decide)⟩

/-- C1: `handle_closing_bracket` errors exactly when the character is one of
the four closing characters and either the stack is empty (underflow
message) or the closing character expected for the stack top differs from
the character (mismatch message, with the expected character taken from the
top before popping); and on the fixture line the first error is exactly
the expected one. -/
theorem handle_closing_bracket_error_characterization :
    (∀ (s : ParserState) (ch : Char),
      (∃ e, (handle_closing_bracket s ch).1 = .error e) ↔
        ((ch = ')' ∨ ch = ']' ∨ ch = '\x7d' ∨ ch = '>') ∧
          (s.stack = [] ∨
            ∃ top rest, s.stack = top :: rest ∧ bracketClosingChar top ≠ ch))) ∧
    (∀ (s : ParserState) (ch : Char),
      (ch = ')' ∨ ch = ']' ∨ ch = '\x7d' ∨ ch = '>') → s.stack = [] →
      (handle_closing_bracket s ch).1 =
        .error ("Expected opening bracket, but found " ++ ch.toString
          ++ " instead.")) ∧
    (∀ (s : ParserState) (ch : Char) (top : Bracket) (rest : List Bracket),
      (ch = ')' ∨ ch = ']' ∨ ch = '\x7d' ∨ ch = '>') →
      s.stack = top :: rest → bracketClosingChar top ≠ ch →
      (handle_closing_bracket s ch).1 =
        .error ("Expected " ++ (bracketClosingChar top).toString
          ++ ", but found " ++ ch.toString ++ " instead.")) ∧
    firstError fixtureLine = some "Expected ], but found \x7d instead." := by
  refine ⟨?_, ?_, ?_, rfl⟩
  · intro s ch
    constructor
    · rintro ⟨e, he⟩
      cases hc : closingToBracket ch with
      | none =>
          rw [handle_closing_of_not_closing s hc] at he
          exact absurd he (by simp)
      | some b =>
          refine ⟨closing_char_of_closingToBracket hc, ?_⟩
          cases hst : s.stack with
          | nil => exact Or.inl rfl
          | cons top rest =>
              refine Or.inr ⟨top, rest, rfl, ?_⟩
              intro hch
              have hb : top = b := by
                have := bracketClosingChar_of_closingToBracket hc
                exact bracketClosingChar_injective top b (by rw [hch, this])
              subst hb
              rw [handle_closing_match s hc hst] at he
              exact absurd he (by simp)
    · rintro ⟨hch, hcase⟩
      obtain ⟨b, hc⟩ := closingToBracket_of_closing_char hch
      rcases hcase with hst | ⟨top, rest, hst, hne⟩
      · exact ⟨_, by rw [handle_closing_empty s hc hst]⟩
      · have hb : top ≠ b := by
          intro hb
          subst hb
          exact hne (bracketClosingChar_of_closingToBracket hc)
        exact ⟨_, by rw [handle_closing_mismatch s hc hst hb]⟩
  · intro s ch hch hst
    obtain ⟨b, hc⟩ := closingToBracket_of_closing_char hch
    rw [handle_closing_empty s hc hst]
  · intro s ch top rest hch hst hne
    obtain ⟨b, hc⟩ := closingToBracket_of_closing_char hch
    have hb : top ≠ b := by
      intro hb
      subst hb
      exact hne (bracketClosingChar_of_closingToBracket hc)
    rw [handle_closing_mismatch s hc hst hb]

/-- Witness for C1: the mismatch message on a concrete state and character. -/
theorem handle_closing_bracket_error_characterization_witness :
    (handle_closing_bracket ⟨[.Square]⟩ '\x7d').1 =
      .error ("Expected " ++ (bracketClosingChar .Square).toString
        ++ ", but found " ++ ('\x7d').toString ++ " instead.") :=
  handle_closing_bracket_error_characterization.2.2.1
    ⟨[.Square]⟩ '\x7d' .Square [] (by decide) rfl (by decide)

/-- C3 counterexample: on the even-length collection `[1, 2]` (already
sorted) the two central elements are 1 and 2, whose lower-middle is 1, but
`find_median_score` returns the element at index `len / 2 = 1`, namely 2 —
the upper-middle, not the lower-middle. -/
theorem find_median_score_even_counterexample :
    find_median_score [1, 2] = some 2 ∧ some (2 : Int) ≠ some 1 := by
  have hs : ([1, 2] : List Int).mergeSort = [1, 2] :=
    List.mergeSort_eq_self (by decide)
  exact ⟨by simp [find_median_score, hs], by decide⟩

/-- C3 amended: `find_median_score` returns the element at index `len / 2`
(integer division) of the input sorted ascending — the true median for
odd-length collections, and the upper-middle (not lower-middle) of the two
central elements for even-length collections; the median of the example
collection is 288957. -/
theorem find_median_score_sorted_index :
    (∀ l : List Int, ∃ s : List Int, s.Perm l ∧ s.Sorted (· ≤ ·) ∧
      find_median_score l = s[s.length / 2]?) ∧
    find_median_score [294, 5566, 288957, 995444, 1480781] = some 288957 := by
  constructor
  · intro l
    refine ⟨l.mergeSort (fun a b => decide (a ≤ b)), List.mergeSort_perm l _,
      List.sorted_mergeSort' l, ?_⟩
    rfl
  · have hs : ([294, 5566, 288957, 995444, 1480781] : List Int).mergeSort =
        [294, 5566, 288957, 995444, 1480781] :=
      List.mergeSort_eq_self (by decide)
    simp [find_median_score, hs]

/-- C4 counterexample: on the line `(]` the second character's step returns
a corruption error, and after that erroring step the stack is empty — the
mismatched top was popped — although the opening bracket `(` encountered so
far was never validly closed, so the specification stack is `[Round]`. -/
theorem stack_invariant_error_step_counterexample :
    (stepChar (stepChar ParserState.new '(').2 ']').1 =
      .error "Expected ), but found ] instead." ∧
    (stepChar (stepChar ParserState.new '(').2 ']').2.stack = [] ∧
    unclosedOpen ['(', ']'] = [.Round] ∧
    ([] : List Bracket) ≠ [.Round] :=
  ⟨rfl, rfl, rfl, by decide⟩

/-- C4 amended: after every character step that succeeds — equivalently,
after every prefix of a line processed without error — the parser's stack
contains exactly the bracket kinds of the opening brackets encountered so
far that have not yet been validly closed, in nesting order (innermost
first); a step that returns a corruption error additionally pops the
mismatched stack top, so the invariant is not maintained across error
steps. -/
theorem stack_invariant_successful_steps (cs : List Char) (s : ParserState)
    (h : processLine ParserState.new cs = .ok s) :
    s.stack = unclosedOpen cs :=
  processLine_stack cs ParserState.new s h

/-- Witness for C4's amended invariant on the prefix `([`. -/
theorem stack_invariant_successful_steps_witness :
    processLine ParserState.new ['(', '['] = .ok ⟨[.Square, .Round]⟩ ∧
    (⟨[.Square, .Round]⟩ : ParserState).stack = unclosedOpen ['(', '['] :=
  ⟨rfl, stack_invariant_successful_steps ['(', '['] ⟨[.Square, .Round]⟩ rfl⟩

/-- C5: a fully balanced line parses without corruption back to the empty
stack, yields the empty completion string, scores 0, and that 0 is still
prepended to the score collection. -/
theorem balanced_line_scores_zero (cs : List Char) (ls : List (List Char))
    (h : Balanced cs) :
    processLine ParserState.new cs = .ok ⟨[]⟩ ∧
    ParserState.completion_string ⟨[]⟩ = [] ∧
    calculate_score (ParserState.completion_string ⟨[]⟩) = some 0 ∧
    collectScores (cs :: ls) = (collectScores ls).map (fun tl => 0 :: tl) := by
  have h1 := processLine_balanced h ParserState.new
  refine ⟨h1, rfl, rfl, ?_⟩
  rw [collectScores_cons, h1]
  rfl

/-- Witness for C5 on the balanced line `(<>)`. -/
theorem balanced_line_scores_zero_witness :
    Balanced ['(', '<', '>', ')'] ∧
    processLine ParserState.new ['(', '<', '>', ')'] = .ok ⟨[]⟩ ∧
    collectScores [['(', '<', '>', ')']] = some [0] := by
  have hbal : Balanced ['(', '<', '>', ')'] :=
    Balanced.wrap .Round (Balanced.wrap .Angle Balanced.nil)
  have h := balanced_line_scores_zero ['(', '<', '>', ')'] [] hbal
  exact ⟨hbal, h.1, by rw [h.2.2.2]; rfl⟩

/-- C8: when a line errors, appending further characters changes nothing —
the same first error is reported, no later character is processed — and the
corrupted line contributes no score: the collection over the remaining lines
is unchanged. -/
theorem corruption_short_circuits_line (cs more : List Char) (e : String)
    (ls : List (List Char))
    (h : processLine ParserState.new cs = .error e) :
    processLine ParserState.new (cs ++ more) = .error e ∧
    collectScores ((cs ++ more) :: ls) = collectScores ls := by
  have h2 := processLine_error_append cs more e ParserState.new h
  refine ⟨h2, ?_⟩
  rw [collectScores_cons, h2]

/-- Witness for C8 on the corrupted line `(]` extended by `<`. -/
theorem corruption_short_circuits_line_witness :
    processLine ParserState.new ['(', ']'] =
      .error "Expected ), but found ] instead." ∧
    processLine ParserState.new (['(', ']'] ++ ['<']) =
      .error "Expected ), but found ] instead." ∧
    collectScores ((['(', ']'] ++ ['<']) :: [[]]) = collectScores [[]] := by
  have h := corruption_short_circuits_line ['(', ']'] ['<']
    "Expected ), but found ] instead." [[]] rfl
  exact ⟨rfl, h.1, h.2⟩

end Day10b
